import Mathlib

/-!
# Formal model of `monitor.py` (Mercor job monitor)

A shallow embedding of the single-file job monitor: the program loads a
configuration file, loads a file of previously-seen job ids, scrapes a job
listing page, diffs the scraped jobs against the seen ids, emails a
notification for the new ones, and persists the union of ids.

Modelling conventions:
* Python strings are sequences of code points; where the program performs
  string surgery (`str.split`, `in`) we model them as `List Char` with
  executable functions mirroring Python semantics, and wrap into `String` at
  the interfaces.
* File contents are modelled at the parsed-value level:
  `Option (Except Unit α)` is "file absent / present but malformed JSON /
  present and parses to `a`".  The textual JSON layer is the Python standard
  library, external to this program; `save_seen_jobs` / `as_string_list`
  model it at the JSON-value level.
* `sys.exit(1)` and an uncaught exception both terminate the process with a
  non-zero status; `Halt` distinguishes them, `RunResult.exitZero` records
  the observable exit class.
* Python's `set` has unspecified iteration order, so `list(seen_ids)`
  (monitor.py line 229) is order-nondeterministic.  We model
  `set(seen_jobs)` as `seen_jobs.dedup` (first-occurrence order); every
  property proved below is insensitive to the order chosen.
-/

deriving instance DecidableEq for Except

namespace Monitor

/-- One scraped job listing (monitor.py lines 91-98). -/
structure Job where
  id : String
  title : String
  pay : String
  hired : String
  url : String
  found_at : String
deriving Repr, DecidableEq

/-- The parsed `config.json`: a JSON object with a recipient address and two
optional overrides, each `none` when the key is absent
(`config["email"]`, `config.get("smtp_from", ...)`, `config.get("smtp_user", ...)`). -/
structure Config where
  email : Option String
  smtp_from : Option String
  smtp_user : Option String
deriving Repr, DecidableEq

/-- Uncaught Python exceptions relevant to the program. -/
inductive PyErr where
  | keyError
  | jsonDecodeError
deriving Repr, DecidableEq

/-- Ways a run terminates abnormally: `sys.exit(1)` or an uncaught
exception.  Both yield a non-zero process exit status. -/
inductive Halt where
  | sysExit1
  | uncaught (e : PyErr)
deriving Repr, DecidableEq

/-- Model of `load_config` (monitor.py lines 29-36): `sys.exit(1)` when the file is
absent; `json.load` raises when it is malformed; otherwise the parsed
config. -/
def load_config (file : Option (Except Unit Config)) : Except Halt Config :=
  match file with
  | none => .error .sysExit1
  | some (.error _) => .error (.uncaught .jsonDecodeError)
  | some (.ok c) => .ok c

/-- Model of `load_seen_jobs` (monitor.py lines 39-44): `[]` when the file is absent;
`json.load` raises when it is malformed; otherwise the stored id list. -/
def load_seen_jobs (file : Option (Except Unit (List String))) :
    Except Halt (List String) :=
  match file with
  | none => .ok []
  | some (.error _) => .error (.uncaught .jsonDecodeError)
  | some (.ok l) => .ok l

/-! ## Python string primitives (code-point level) -/

/-- Does `pat` occur at the head of `s`? -/
def startsWithL : List Char → List Char → Bool
  | _, [] => true
  | [], _ :: _ => false
  | c :: cs, p :: ps => c == p && startsWithL cs ps

/-- Python's substring test `pat in s` (for the fixed non-empty marker). -/
def pyContains : List Char → List Char → Bool
  | [], pat => startsWithL [] pat
  | c :: cs, pat => startsWithL (c :: cs) pat || pyContains cs pat

/-- Fuel-driven core of Python `s.split(pat)` for non-empty `pat`:
scan left to right, cutting at each non-overlapping occurrence. -/
def pySplitAux (pat : List Char) : Nat → List Char → List Char →
    List (List Char)
  | 0, s, cur => [cur.reverse ++ s]
  | fuel + 1, s, cur =>
    if startsWithL s pat then
      cur.reverse :: pySplitAux pat fuel (s.drop pat.length) []
    else
      match s with
      | [] => [cur.reverse]
      | c :: cs => pySplitAux pat fuel cs (c :: cur)

/-- Python `s.split(pat)` for non-empty `pat` (the program only splits on
the fixed marker `"list_"`).  `s.length + 1` fuel always suffices. -/
def pySplit (s pat : List Char) : List (List Char) :=
  pySplitAux pat (s.length + 1) s []

/-- The marker token used to derive a job id from a link target. -/
def marker : List Char := "list_".toList

/-- Id derivation (monitor.py line 77):
`href.split("list_")[1] if "list_" in href else href`. -/
def job_id_of_href (href : String) : String :=
  if pyContains href.toList marker then
    String.mk ((pySplit href.toList marker).getD 1 href.toList)
  else href

/-- Spec-side reading helper: the suffix of `s` strictly after the first
occurrence of `pat` ("the text following the marker"). -/
def suffix_after_first : List Char → List Char → List Char
  | [], _ => []
  | c :: cs, pat =>
    if startsWithL (c :: cs) pat then (c :: cs).drop pat.length
    else suffix_after_first cs pat

/-- Spec-side reading helper: the prefix of `s` strictly before the first
occurrence of `pat` (all of `s` when `pat` does not occur). -/
def segment_before_first : List Char → List Char → List Char
  | [], _ => []
  | c :: cs, pat =>
    if startsWithL (c :: cs) pat then []
    else c :: segment_before_first cs pat

/-- A rendered listing element as the scraper sees it: its link target and
the optional sub-lookups (heading text, pay text, hired text). -/
structure Element where
  href : String
  h3 : Option String
  payText : Option String
  hiredText : Option String
deriving Repr, DecidableEq

/-- Per-element record construction (monitor.py lines 76-98); `now` stands
for `datetime.now().isoformat()`. -/
def extract_job (now : String) (e : Element) : Job :=
  { id := job_id_of_href e.href
    title := (e.h3.getD "Unknown Title").trim
    pay := (e.payText.getD "Pay not listed").trim
    hired := (e.hiredText.getD "").trim
    url := "https://work.mercor.com" ++ e.href
    found_at := now }

/-! ## Email notification -/

/-- The headers of the composed message (monitor.py lines 181-184). -/
structure EmailMessage where
  subject : String
  fromAddr : String
  toAddr : String
deriving Repr, DecidableEq

/-- What `send_email` did, when it returned normally. -/
inductive EmailOutcome where
  /-- Missing or empty `SMTP_PASSWORD`: warning logged, nothing sent. -/
  | skippedNoPassword (msg : EmailMessage)
  /-- Message delivered after logging in as `loginUser`. -/
  | sent (msg : EmailMessage) (loginUser : String)
  /-- SMTP raised; the exception was caught and logged. -/
  | deliveryFailed (msg : EmailMessage) (loginUser : String)
deriving Repr, DecidableEq

/-- The composed message of an outcome. -/
def EmailOutcome.msg : EmailOutcome → EmailMessage
  | .skippedNoPassword m => m
  | .sent m _ => m
  | .deliveryFailed m _ => m

/-- The SMTP login identity used, when a delivery was attempted. -/
def EmailOutcome.loginUser? : EmailOutcome → Option String
  | .skippedNoPassword _ => none
  | .sent _ u => u
  | .deliveryFailed _ u => u

/-- Subject line (monitor.py line 117). -/
def subject_for (n : Nat) : String :=
  String.singleton (Char.ofNat 0x1F6A8) ++ " " ++ toString n ++
    " New Mercor Job" ++ (if n != 1 then "s" else "") ++ " Available!"

/-- Model of `send_email` (monitor.py lines 112-201).  `config["email"]` (line 114)
is looked up OUTSIDE the `try`, so a missing recipient raises `KeyError`
out of the function.  Inside the `try`: the message is composed, then the
environment password is checked (`if not smtp_password` — `None` and the
empty string both skip), then SMTP delivery is attempted; any exception in
the `try` is caught and logged.  `smtp_ok` models whether the external SMTP
session succeeds. -/
def send_email (config : Config) (env_smtp_password : Option String)
    (smtp_ok : Bool) (new_jobs : List Job) : Except Halt EmailOutcome :=
  match config.email with
  | none => .error (.uncaught .keyError)
  | some recipient =>
    let msg : EmailMessage :=
      { subject := subject_for new_jobs.length
        fromAddr := config.smtp_from.getD recipient
        toAddr := recipient }
    if (env_smtp_password.getD "") = "" then
      .ok (.skippedNoPassword msg)
    else
      let user := config.smtp_user.getD recipient
      if smtp_ok then .ok (.sent msg user) else .ok (.deliveryFailed msg user)

/-! ## The main run -/

/-- The diff (monitor.py lines 217-218):
`seen_ids = set(seen_jobs); new_jobs = [job for job in current_jobs if
job["id"] not in seen_ids]`. -/
def compute_new_jobs (seen_jobs : List String) (current_jobs : List Job) :
    List Job :=
  let seen_ids := seen_jobs.dedup
  current_jobs.filter (fun job => !(seen_ids.contains job.id))

/-- Everything outside the process a run reads: the two files, the scrape
result (`scrape_jobs` catches all page-level errors and returns the jobs
extracted so far, `[]` on total failure), the `SMTP_PASSWORD` environment
variable, and whether the external SMTP delivery would succeed. -/
structure World where
  configFile : Option (Except Unit Config)
  seenFile : Option (Except Unit (List String))
  scraped : List Job
  envPassword : Option String
  smtpOk : Bool

/-- The observable outcome of one run: the exit-status class, the outcome
of `send_email` when it returned, and the list handed to `save_seen_jobs`
when the store was written. -/
structure RunResult where
  exitZero : Bool
  email : Option EmailOutcome
  wrote : Option (List String)
deriving Repr, DecidableEq

/-- Model of `main` (monitor.py lines 204-232). -/
def runMain (w : World) : RunResult :=
  match load_config w.configFile with
  | .error _ => { exitZero := false, email := none, wrote := none }
  | .ok config =>
    match load_seen_jobs w.seenFile with
    | .error _ => { exitZero := false, email := none, wrote := none }
    | .ok seen_jobs =>
      let current_jobs := w.scraped
      if current_jobs.isEmpty then
        { exitZero := true, email := none, wrote := none }
      else
        let new_jobs := compute_new_jobs seen_jobs current_jobs
        if new_jobs.isEmpty then
          { exitZero := true, email := none, wrote := none }
        else
          match send_email config w.envPassword w.smtpOk new_jobs with
          | .error _ => { exitZero := false, email := none, wrote := none }
          | .ok out =>
            let all_job_ids := seen_jobs.dedup ++ new_jobs.map Job.id
            { exitZero := true, email := some out, wrote := some all_job_ids }

/-- The seen-set file after the run: untouched unless `save_seen_jobs` was
called, in which case it holds the written list. -/
def seenFileAfter (w : World) : Option (Except Unit (List String)) :=
  match (runMain w).wrote with
  | none => w.seenFile
  | some l => some (.ok l)

/-! ## The store's serialization, at the JSON-value level -/

/-- A JSON value, as far as this program's files need. -/
inductive Json where
  | jnull
  | jbool (b : Bool)
  | jnum (n : Int)
  | jstr (s : String)
  | jarr (xs : List Json)

/-- Model of `save_seen_jobs` (monitor.py lines 47-50): `json.dump(jobs, f)` writes
the id list as a JSON array of strings. -/
def save_seen_jobs (jobs : List String) : Json :=
  .jarr (jobs.map .jstr)

/-- Reading back a JSON array whose elements are all strings. -/
def as_strings : List Json → Option (List String)
  | [] => some []
  | .jstr s :: rest => (as_strings rest).map (fun l => s :: l)
  | _ :: _ => none

/-- Reading a stored JSON value back as a list of ids, as `json.load`
followed by the program's use of the result effectively does; `none` when
the value is not an array of strings. -/
def as_string_list : Json → Option (List String)
  | .jarr xs => as_strings xs
  | _ => none

/-! ## Concrete data for witnesses and counterexamples -/

/-- A sample job with id `"A"`. -/
def jobA : Job :=
  { id := "A", title := "Title A", pay := "$10/hr", hired := ""
    url := "https://work.mercor.com/jobs/list_A", found_at := "2026-10-12T00:00:00" }

/-- A sample job with id `"B"` (the spec's scenario job). -/
def jobB : Job :=
  { id := "B", title := "Data Labeler", pay := "$25/hr", hired := ""
    url := "https://work.mercor.com/jobs/list_B", found_at := "2026-10-12T00:00:00" }

/-- A sample job with id `"C"`. -/
def jobC : Job :=
  { id := "C", title := "Title C", pay := "$30/hr", hired := ""
    url := "https://work.mercor.com/jobs/list_C", found_at := "2026-10-12T00:00:00" }

/-- A sample job with id `"x"`. -/
def jobX : Job :=
  { id := "x", title := "Title X", pay := "$20/hr", hired := ""
    url := "https://work.mercor.com/jobs/list_x", found_at := "2026-10-12T00:00:00" }

/-- A second listing element sharing id `"x"` with `jobX`. -/
def jobX2 : Job := { jobX with title := "Title X again" }

/-- A config with a recipient and no overrides. -/
def cfgFull : Config := { email := some "user@example.com", smtp_from := none, smtp_user := none }

/-- A config whose JSON object lacks the `email` key. -/
def cfgNoEmail : Config := { email := none, smtp_from := none, smtp_user := none }

/-- A run whose scrape produced nothing. -/
def wEmptyScrape : World :=
  { configFile := some (.ok cfgFull), seenFile := some (.ok ["A"])
    scraped := [], envPassword := some "pw", smtpOk := true }

/-- A run with one new job (`jobC`) and no `SMTP_PASSWORD`. -/
def wNewNoPass : World :=
  { configFile := some (.ok cfgFull), seenFile := some (.ok ["A"])
    scraped := [jobA, jobC], envPassword := none, smtpOk := true }

/-- A run whose scrape yielded two elements sharing the unseen id `"x"`. -/
def wDupIds : World :=
  { configFile := some (.ok cfgFull), seenFile := none
    scraped := [jobX, jobX2], envPassword := none, smtpOk := true }

/-- A run whose config loaded fine but lacks the `email` key, with a new job. -/
def wNoEmailKey : World :=
  { configFile := some (.ok cfgNoEmail), seenFile := none
    scraped := [jobA], envPassword := some "pw", smtpOk := true }

/-- The outcome `send_email` produces for `cfgFull`, one job, a password
present and a working SMTP session. -/
def sentToSelf : EmailOutcome :=
  .sent { subject := subject_for 1, fromAddr := "user@example.com"
          toAddr := "user@example.com" } "user@example.com"

/-- A run in which every scraped id is already seen. -/
def wAllSeen : World :=
  { configFile := some (.ok cfgFull), seenFile := some (.ok ["A", "B"])
    scraped := [jobA, jobB], envPassword := some "pw", smtpOk := true }

end Monitor

namespace Monitor

/-! ## Helper lemmas -/

theorem contains_iff_mem (l : List String) (a : String) :
    l.contains a = true ↔ a ∈ l :=
  List.elem_iff

theorem dedup_contains (l : List String) (a : String) :
    l.dedup.contains a = l.contains a := by
  by_cases h : a ∈ l
  · rw [(contains_iff_mem _ _).mpr (List.mem_dedup.mpr h),
      (contains_iff_mem _ _).mpr h]
  · have h1 : l.dedup.contains a = false := by
      rw [Bool.eq_false_iff]
      intro hc
      exact h (List.mem_dedup.mp ((contains_iff_mem _ _).mp hc))
    have h2 : l.contains a = false := by
      rw [Bool.eq_false_iff]
      intro hc
      exact h ((contains_iff_mem _ _).mp hc)
    rw [h1, h2]

theorem startsWithL_length {s pat : List Char} (h : startsWithL s pat = true) :
    pat.length ≤ s.length := by
  induction pat generalizing s with
  | nil => exact Nat.zero_le _
  | cons p ps ih =>
    cases s with
    | nil => simp [startsWithL] at h
    | cons c cs =>
      simp only [startsWithL, Bool.and_eq_true] at h
      simpa using ih h.2

theorem startsWithL_nil_of_ne {pat : List Char} (h : pat ≠ []) :
    startsWithL [] pat = false := by
  cases pat with
  | nil => exact absurd rfl h
  | cons p ps => rfl

theorem pySplitAux_step_pos {pat s cur : List Char} {fuel : Nat}
    (h : startsWithL s pat = true) :
    pySplitAux pat (fuel + 1) s cur =
      cur.reverse :: pySplitAux pat fuel (s.drop pat.length) [] := by
  rw [pySplitAux.eq_def]
  simp [h]

theorem pySplitAux_step_nil {pat cur : List Char} {fuel : Nat}
    (h : startsWithL [] pat = false) :
    pySplitAux pat (fuel + 1) [] cur = [cur.reverse] := by
  rw [pySplitAux.eq_def]
  simp [h]

theorem pySplitAux_step_cons {pat cs cur : List Char} {c : Char} {fuel : Nat}
    (h : startsWithL (c :: cs) pat = false) :
    pySplitAux pat (fuel + 1) (c :: cs) cur = pySplitAux pat fuel cs (c :: cur) := by
  rw [pySplitAux.eq_def]
  simp [h]

theorem pySplitAux_fuel {pat : List Char} (hpat : pat ≠ []) :
    ∀ fuel fuel' s cur, s.length + 1 ≤ fuel → s.length + 1 ≤ fuel' →
      pySplitAux pat fuel s cur = pySplitAux pat fuel' s cur := by
  intro fuel
  induction fuel with
  | zero => intro fuel' s cur h _; omega
  | succ f ih =>
    intro fuel' s cur h h'
    cases fuel' with
    | zero => omega
    | succ f' =>
      have hpl : 1 ≤ pat.length := List.length_pos.mpr hpat
      by_cases hst : startsWithL s pat = true
      · rw [pySplitAux_step_pos hst, pySplitAux_step_pos hst]
        have hlen : pat.length ≤ s.length := startsWithL_length hst
        have hdrop : (s.drop pat.length).length + 1 ≤ f := by
          rw [List.length_drop]; omega
        have hdrop' : (s.drop pat.length).length + 1 ≤ f' := by
          rw [List.length_drop]; omega
        rw [ih f' (s.drop pat.length) [] hdrop hdrop']
      · have hst' : startsWithL s pat = false := Bool.eq_false_iff.mpr hst
        cases s with
        | nil => rw [pySplitAux_step_nil hst', pySplitAux_step_nil hst']
        | cons c cs =>
          rw [pySplitAux_step_cons hst', pySplitAux_step_cons hst']
          have hc : cs.length + 1 ≤ f := by
            simp only [List.length_cons] at h; omega
          have hc' : cs.length + 1 ≤ f' := by
            simp only [List.length_cons] at h'; omega
          exact ih f' cs (c :: cur) hc hc'

theorem pySplitAux_spec {pat : List Char} (hpat : pat ≠ []) :
    ∀ n s cur, s.length ≤ n →
      pySplitAux pat (s.length + 1) s cur =
        if pyContains s pat then
          (cur.reverse ++ segment_before_first s pat) ::
            pySplit (suffix_after_first s pat) pat
        else [cur.reverse ++ s] := by
  intro n
  induction n with
  | zero =>
    intro s cur hn
    have hs : s = [] := List.length_eq_zero.mp (Nat.le_zero.mp hn)
    subst hs
    rw [pySplitAux_step_nil (startsWithL_nil_of_ne hpat)]
    rw [show pyContains [] pat = false from startsWithL_nil_of_ne hpat]
    simp
  | succ n ih =>
    intro s cur hn
    cases s with
    | nil =>
      rw [pySplitAux_step_nil (startsWithL_nil_of_ne hpat)]
      rw [show pyContains [] pat = false from startsWithL_nil_of_ne hpat]
      simp
    | cons c cs =>
      by_cases hst : startsWithL (c :: cs) pat = true
      · rw [pySplitAux_step_pos hst]
        have hcont : pyContains (c :: cs) pat = true := by
          rw [pyContains, hst, Bool.true_or]
        have hseg : segment_before_first (c :: cs) pat = [] := by
          rw [segment_before_first, if_pos hst]
        have hsuf : suffix_after_first (c :: cs) pat = (c :: cs).drop pat.length := by
          rw [suffix_after_first, if_pos hst]
        rw [if_pos hcont, hseg, hsuf]
        have hpl : 1 ≤ pat.length := List.length_pos.mpr hpat
        have hlen : pat.length ≤ (c :: cs).length := startsWithL_length hst
        have hfuel : ((c :: cs).drop pat.length).length + 1 ≤ (c :: cs).length := by
          rw [List.length_drop]
          simp only [List.length_cons]
          omega
        rw [pySplitAux_fuel hpat ((c :: cs).length) (((c :: cs).drop pat.length).length + 1)
          ((c :: cs).drop pat.length) [] hfuel (Nat.le_refl _)]
        simp [pySplit]
      · have hst' : startsWithL (c :: cs) pat = false := Bool.eq_false_iff.mpr hst
        have hstep : pySplitAux pat ((c :: cs).length + 1) (c :: cs) cur =
            pySplitAux pat (cs.length + 1) cs (c :: cur) := by
          simpa using @pySplitAux_step_cons pat cs cur c (cs.length + 1) hst'
        rw [hstep]
        have hcs : cs.length ≤ n := by
          simp only [List.length_cons] at hn; omega
        rw [ih cs (c :: cur) hcs]
        have hcont : pyContains (c :: cs) pat = pyContains cs pat := by
          rw [pyContains, hst', Bool.false_or]
        have hseg : segment_before_first (c :: cs) pat = c :: segment_before_first cs pat := by
          rw [segment_before_first, if_neg hst]
        have hsuf : suffix_after_first (c :: cs) pat = suffix_after_first cs pat := by
          rw [suffix_after_first, if_neg hst]
        rw [hcont, hseg, hsuf]
        by_cases hc : pyContains cs pat = true
        · rw [if_pos hc, if_pos hc]
          simp
        · rw [if_neg hc, if_neg hc]
          simp

/-- Characterization of Python `split` on a non-empty separator: the first
field is the text before the first occurrence; the remaining fields are the
split of the text after it. -/
theorem pySplit_eq {pat : List Char} (hpat : pat ≠ []) (s : List Char) :
    pySplit s pat =
      if pyContains s pat then
        segment_before_first s pat :: pySplit (suffix_after_first s pat) pat
      else [s] := by
  have h := pySplitAux_spec hpat s.length s [] (Nat.le_refl _)
  rw [pySplit, h]
  by_cases hc : pyContains s pat = true
  · rw [if_pos hc, if_pos hc]; simp
  · rw [if_neg hc, if_neg hc]; simp

theorem segment_eq_self_of_not_contains {pat : List Char} :
    ∀ {s : List Char}, pyContains s pat = false → segment_before_first s pat = s := by
  intro s
  induction s with
  | nil => intro _; rfl
  | cons c cs ih =>
    intro h
    rw [pyContains, Bool.or_eq_false_iff] at h
    rw [segment_before_first, if_neg (by rw [h.1]; simp), ih h.2]

theorem pySplit_getD_zero {pat : List Char} (hpat : pat ≠ []) (s d : List Char) :
    (pySplit s pat).getD 0 d = segment_before_first s pat := by
  rw [pySplit_eq hpat]
  by_cases hc : pyContains s pat = true
  · rw [if_pos hc]; rfl
  · rw [if_neg hc]
    rw [segment_eq_self_of_not_contains (Bool.eq_false_iff.mpr hc)]
    rfl

theorem contains_eq_false_iff (l : List String) (a : String) :
    l.contains a = false ↔ a ∉ l := by
  rw [Bool.eq_false_iff]
  exact not_congr (contains_iff_mem l a)

theorem compute_new_jobs_eq_filter (S : List String) (L : List Job) :
    compute_new_jobs S L = L.filter (fun job => !(S.contains job.id)) := by
  unfold compute_new_jobs
  exact List.filter_congr (fun x _ => by rw [dedup_contains])

theorem send_email_ok_of_email {c : Config} {r : String} {pw : Option String}
    {ok : Bool} {jobs : List Job} (h : c.email = some r) :
    ∃ out, send_email c pw ok jobs = Except.ok out := by
  simp only [send_email, h]
  by_cases hp : (pw.getD "") = ""
  · exact ⟨_, by rw [if_pos hp]⟩
  · rw [if_neg hp]
    cases ok with
    | false => exact ⟨_, rfl⟩
    | true => exact ⟨_, rfl⟩

theorem send_email_missing_recipient {c : Config} {pw : Option String}
    {ok : Bool} {jobs : List Job} (h : c.email = none) :
    send_email c pw ok jobs = .error (.uncaught .keyError) := by
  unfold send_email
  rw [h]

theorem send_email_skip_of_no_password {c : Config} {r : String} {ok : Bool}
    {jobs : List Job} (h : c.email = some r) :
    send_email c none ok jobs = .ok (.skippedNoPassword
      { subject := subject_for jobs.length
        fromAddr := c.smtp_from.getD r
        toAddr := r }) := by
  unfold send_email
  rw [h]
  rfl

theorem runMain_config_absent (w : World) (hc : w.configFile = none) :
    runMain w = { exitZero := false, email := none, wrote := none } := by
  unfold runMain
  rw [hc]
  rfl

theorem runMain_config_malformed (w : World) (hc : w.configFile = some (.error ())) :
    runMain w = { exitZero := false, email := none, wrote := none } := by
  unfold runMain
  rw [hc]
  rfl

theorem runMain_seen_malformed (w : World) (c : Config)
    (hc : w.configFile = some (.ok c)) (hs : w.seenFile = some (.error ())) :
    runMain w = { exitZero := false, email := none, wrote := none } := by
  unfold runMain
  rw [hc, hs]
  rfl

theorem runMain_ok (w : World) (c : Config) (seen : List String)
    (hc : w.configFile = some (.ok c)) (hs : load_seen_jobs w.seenFile = .ok seen) :
    runMain w =
      if w.scraped.isEmpty then { exitZero := true, email := none, wrote := none }
      else if (compute_new_jobs seen w.scraped).isEmpty then
        { exitZero := true, email := none, wrote := none }
      else
        match send_email c w.envPassword w.smtpOk (compute_new_jobs seen w.scraped) with
        | .error _ => { exitZero := false, email := none, wrote := none }
        | .ok out =>
          { exitZero := true, email := some out
            wrote := some (seen.dedup ++ (compute_new_jobs seen w.scraped).map Job.id) } := by
  unfold runMain
  rw [hc, hs]
  rfl

theorem seenFileAfter_of_wrote_none {w : World} (h : (runMain w).wrote = none) :
    seenFileAfter w = w.seenFile := by
  unfold seenFileAfter
  rw [h]

theorem seenFileAfter_of_wrote_some {w : World} {l : List String}
    (h : (runMain w).wrote = some l) :
    seenFileAfter w = some (.ok l) := by
  unfold seenFileAfter
  rw [h]

theorem compute_new_jobs_nil (S : List String) : compute_new_jobs S [] = [] := rfl

theorem c5_aux (w : World) (c : Config) (seen : List String)
    (hc : w.configFile = some (.ok c)) (hs : load_seen_jobs w.seenFile = .ok seen) :
    (runMain w).exitZero = false ↔
      (c.email = none ∧ compute_new_jobs seen w.scraped ≠ []) := by
  rw [runMain_ok w c seen hc hs]
  by_cases h1 : w.scraped.isEmpty
  · rw [if_pos h1]
    rw [show w.scraped = [] from List.isEmpty_iff.mp h1, compute_new_jobs_nil]
    simp
  · rw [if_neg h1]
    by_cases h2 : (compute_new_jobs seen w.scraped).isEmpty
    · rw [if_pos h2]
      simp [List.isEmpty_iff.mp h2]
    · rw [if_neg h2]
      have hne : compute_new_jobs seen w.scraped ≠ [] := by
        intro h0
        exact h2 (by rw [h0]; rfl)
      cases hce : c.email with
      | none =>
        rw [send_email_missing_recipient hce]
        simp [hne]
      | some r =>
        obtain ⟨out, hout⟩ := send_email_ok_of_email hce
        rw [hout]
        simp

/-! ## Claim theorems -/

/-- C1: for every prior seen-set `S` and non-empty scraped list `L`, the
computed new-jobs list is exactly the elements of `L` whose id is not a
member of `S`, in the same relative order as they appear in `L`. -/
theorem c1_diff_exact (S : List String) (L : List Job) (hL : L ≠ []) :
    compute_new_jobs S L = L.filter (fun job => !(S.contains job.id)) ∧
    (∀ job, job ∈ compute_new_jobs S L ↔ job ∈ L ∧ job.id ∉ S) ∧
    (compute_new_jobs S L).Sublist L := by
  refine ⟨compute_new_jobs_eq_filter S L, fun job => ?_, ?_⟩
  · rw [compute_new_jobs_eq_filter, List.mem_filter]
    constructor
    · rintro ⟨h1, h2⟩
      refine ⟨h1, ?_⟩
      have h3 : S.contains job.id = false := by
        cases hcb : S.contains job.id with
        | false => rfl
        | true => rw [hcb] at h2; exact absurd h2 (by decide)
      exact (contains_eq_false_iff S job.id).mp h3
    · rintro ⟨h1, h2⟩
      refine ⟨h1, ?_⟩
      rw [(contains_eq_false_iff S job.id).mpr h2]
      rfl
  · rw [compute_new_jobs_eq_filter]
    exact List.filter_sublist L

/-- C1 witness: the spec's scenario `S = {"A"}`,
`L = [{id:"A"}, {id:"B", title:"Data Labeler", pay:"$25/hr"}]`. -/
theorem c1_diff_exact_witness :
    ([jobA, jobB] : List Job) ≠ [] ∧
    (compute_new_jobs ["A"] [jobA, jobB] =
        [jobA, jobB].filter (fun job => !((["A"] : List String).contains job.id)) ∧
      (∀ job, job ∈ compute_new_jobs ["A"] [jobA, jobB] ↔
        job ∈ [jobA, jobB] ∧ job.id ∉ (["A"] : List String)) ∧
      (compute_new_jobs ["A"] [jobA, jobB]).Sublist [jobA, jobB]) :=
  ⟨by decide, c1_diff_exact ["A"] [jobA, jobB] (by decide)⟩

/-- C2: if the scraped list is empty, the run attempts no notification,
does not write the seen-set store, and the seen-set file after the run is
identical to before. -/
theorem c2_empty_scrape_frame (w : World) (h : w.scraped = []) :
    (runMain w).email = none ∧ (runMain w).wrote = none ∧
    seenFileAfter w = w.seenFile := by
  have hres : (runMain w).email = none ∧ (runMain w).wrote = none := by
    cases hc : w.configFile with
    | none => rw [runMain_config_absent w hc]; exact ⟨rfl, rfl⟩
    | some e =>
      cases e with
      | error u =>
        cases u
        rw [runMain_config_malformed w hc]
        exact ⟨rfl, rfl⟩
      | ok c =>
        cases hs : w.seenFile with
        | none =>
          rw [runMain_ok w c [] hc (by rw [hs]; rfl)]
          rw [if_pos (show w.scraped.isEmpty = true by rw [h]; rfl)]
          exact ⟨rfl, rfl⟩
        | some e2 =>
          cases e2 with
          | error u =>
            cases u
            rw [runMain_seen_malformed w c hc hs]
            exact ⟨rfl, rfl⟩
          | ok seen =>
            rw [runMain_ok w c seen hc (by rw [hs]; rfl)]
            rw [if_pos (show w.scraped.isEmpty = true by rw [h]; rfl)]
            exact ⟨rfl, rfl⟩
  exact ⟨hres.1, hres.2, seenFileAfter_of_wrote_none hres.2⟩

/-- C2 witness: a run with a prior seen file and an empty scrape. -/
theorem c2_empty_scrape_frame_witness :
    wEmptyScrape.scraped = [] ∧
    ((runMain wEmptyScrape).email = none ∧ (runMain wEmptyScrape).wrote = none ∧
      seenFileAfter wEmptyScrape = wEmptyScrape.seenFile) :=
  ⟨rfl, c2_empty_scrape_frame wEmptyScrape rfl⟩

/-- C7: saving a collection of identifiers through the store and loading it
back yields exactly the same identifiers, hence the same membership,
independent of the order in which the set was listed. -/
theorem c7_store_round_trip (ids : List String) :
    as_string_list (save_seen_jobs ids) = some ids ∧
    ∃ l, as_string_list (save_seen_jobs ids) = some l ∧
      l.toFinset = ids.toFinset := by
  have h : as_string_list (save_seen_jobs ids) = some ids := by
    unfold save_seen_jobs as_string_list
    induction ids with
    | nil => rfl
    | cons a as ih =>
      simp only [List.map_cons, as_strings] at ih ⊢
      rw [ih]
      rfl
  exact ⟨h, ids, h, rfl⟩

/-- C8 counterexample: on a link target in which the marker occurs twice,
the derived id is the text between the first and second occurrences
(`"x"`), not the text following the marker (`"xlist_y"`). -/
theorem c8_counterexample :
    pyContains "/jobs/list_xlist_y".toList marker = true ∧
    job_id_of_href "/jobs/list_xlist_y" = "x" ∧
    String.mk (suffix_after_first "/jobs/list_xlist_y".toList marker) = "xlist_y" ∧
    job_id_of_href "/jobs/list_xlist_y" ≠
      String.mk (suffix_after_first "/jobs/list_xlist_y".toList marker) :=
  ⟨by decide, by decide, by decide, by decide⟩

/-- C8 (amended): if the marker is absent the raw link target is used as
the id (the element is never rejected); if the marker occurs, the derived
id is the text following the first occurrence of the marker, truncated at
the next occurrence — which is the whole remaining text whenever the
marker occurs only once. -/
theorem c8_amended_id_derivation (href : String) :
    (pyContains href.toList marker = false → job_id_of_href href = href) ∧
    (pyContains href.toList marker = true →
      job_id_of_href href =
        String.mk (segment_before_first
          (suffix_after_first href.toList marker) marker)) := by
  have hm : marker ≠ [] := by decide
  constructor
  · intro h
    unfold job_id_of_href
    rw [if_neg (by rw [h]; simp)]
  · intro h
    unfold job_id_of_href
    rw [if_pos h, pySplit_eq hm, if_pos h, List.getD_cons_succ,
      pySplit_getD_zero hm]

/-- C8 witness: a well-formed link target with a single marker occurrence. -/
theorem c8_amended_id_derivation_witness :
    pyContains "/jobs/list_B".toList marker = true ∧
    job_id_of_href "/jobs/list_B" =
      String.mk (segment_before_first
        (suffix_after_first "/jobs/list_B".toList marker) marker) :=
  ⟨by decide, (c8_amended_id_derivation "/jobs/list_B").2 (by decide)⟩

/-- C3: when new jobs are found and `SMTP_PASSWORD` is absent, no delivery
is attempted (the outcome is the logged skip), the run does not fail, and
the seen-set is still written, gaining every new job id. -/
theorem c3_no_password_skips_but_persists (w : World) (c : Config) (r : String)
    (seen : List String)
    (hc : w.configFile = some (.ok c)) (hr : c.email = some r)
    (hs : load_seen_jobs w.seenFile = .ok seen)
    (hp : w.envPassword = none)
    (hn : compute_new_jobs seen w.scraped ≠ []) :
    (runMain w).exitZero = true ∧
    (∃ m, (runMain w).email = some (.skippedNoPassword m)) ∧
    ∃ l, (runMain w).wrote = some l ∧
      ∀ job ∈ compute_new_jobs seen w.scraped, job.id ∈ l := by
  have hscr : w.scraped ≠ [] := by
    intro h0
    exact hn (by rw [h0, compute_new_jobs_nil])
  have h1 : w.scraped.isEmpty = false := List.isEmpty_eq_false.mpr hscr
  have h2 : (compute_new_jobs seen w.scraped).isEmpty = false :=
    List.isEmpty_eq_false.mpr hn
  have hsend := @send_email_skip_of_no_password c r w.smtpOk
    (compute_new_jobs seen w.scraped) hr
  rw [runMain_ok w c seen hc hs, if_neg (by simp [h1]), if_neg (by simp [h2]),
    hp, hsend]
  refine ⟨rfl, ⟨_, rfl⟩, _, rfl, fun job hj => ?_⟩
  exact List.mem_append_right _ (List.mem_map_of_mem Job.id hj)

/-- C3 witness: one new job (`jobC`), recipient configured, no password. -/
theorem c3_no_password_skips_but_persists_witness :
    (wNewNoPass.configFile = some (.ok cfgFull) ∧
      cfgFull.email = some "user@example.com" ∧
      load_seen_jobs wNewNoPass.seenFile = .ok ["A"] ∧
      wNewNoPass.envPassword = none ∧
      compute_new_jobs ["A"] wNewNoPass.scraped ≠ []) ∧
    ((runMain wNewNoPass).exitZero = true ∧
      (∃ m, (runMain wNewNoPass).email = some (.skippedNoPassword m)) ∧
      ∃ l, (runMain wNewNoPass).wrote = some l ∧
        ∀ job ∈ compute_new_jobs ["A"] wNewNoPass.scraped, job.id ∈ l) :=
  ⟨⟨rfl, rfl, rfl, rfl, by decide⟩,
    c3_no_password_skips_but_persists wNewNoPass cfgFull "user@example.com" ["A"]
      rfl rfl rfl rfl (by decide)⟩

/-- C4 counterexample: two scraped elements sharing the previously unseen
id `"x"` make the run persist `["x", "x"]`, which has a duplicate. -/
theorem c4_counterexample :
    (runMain wDupIds).wrote = some ["x", "x"] ∧
    ¬ (["x", "x"] : List String).Nodup :=
  ⟨by decide, by decide⟩

/-- C4 (amended): whenever the run writes the seen-set store, the written
list has no duplicate identifiers, PROVIDED no two scraped elements share
the same previously-unseen id (equivalently: the new jobs' ids are
pairwise distinct); with two elements sharing an unseen id the written
list contains that id twice. -/
theorem c4_amended_nodup_write (w : World) (seen l : List String)
    (hs : load_seen_jobs w.seenFile = .ok seen)
    (hnd : ((compute_new_jobs seen w.scraped).map Job.id).Nodup)
    (hw : (runMain w).wrote = some l) : l.Nodup := by
  cases hc : w.configFile with
  | none =>
    rw [runMain_config_absent w hc] at hw
    exact absurd hw (by simp)
  | some e =>
    cases e with
    | error u =>
      cases u
      rw [runMain_config_malformed w hc] at hw
      exact absurd hw (by simp)
    | ok c =>
      rw [runMain_ok w c seen hc hs] at hw
      by_cases h1 : w.scraped.isEmpty
      · rw [if_pos h1] at hw
        exact absurd hw (by simp)
      · rw [if_neg h1] at hw
        by_cases h2 : (compute_new_jobs seen w.scraped).isEmpty
        · rw [if_pos h2] at hw
          exact absurd hw (by simp)
        · rw [if_neg h2] at hw
          cases hse : send_email c w.envPassword w.smtpOk
              (compute_new_jobs seen w.scraped) with
          | error err =>
            rw [hse] at hw
            exact absurd hw (by simp)
          | ok out =>
            rw [hse] at hw
            simp only [Option.some.injEq] at hw
            rw [← hw, List.nodup_append]
            refine ⟨List.nodup_dedup seen, hnd, ?_⟩
            intro a ha hmem
            obtain ⟨job, hjob, hid⟩ := List.mem_map.mp hmem
            rw [compute_new_jobs_eq_filter] at hjob
            have hpred := (List.mem_filter.mp hjob).2
            have hfalse : seen.contains job.id = false := by
              cases hcb : seen.contains job.id with
              | false => rfl
              | true => rw [hcb] at hpred; exact absurd hpred (by decide)
            exact ((contains_eq_false_iff seen job.id).mp hfalse)
              (List.mem_dedup.mp (by rw [hid]; exact ha))

/-- C4 witness: a run whose single new id is fresh writes a duplicate-free
list. -/
theorem c4_amended_nodup_write_witness :
    (load_seen_jobs wNewNoPass.seenFile = .ok ["A"] ∧
      ((compute_new_jobs ["A"] wNewNoPass.scraped).map Job.id).Nodup ∧
      (runMain wNewNoPass).wrote = some ["A", "C"]) ∧
    (["A", "C"] : List String).Nodup :=
  ⟨⟨rfl, by decide, by decide⟩,
    c4_amended_nodup_write wNewNoPass ["A"] ["A", "C"] rfl (by decide) (by decide)⟩

/-- C5 counterexample: the configuration loads fine (the file exists and
parses, merely lacking the `email` key), yet the run exits non-zero: with
a new job found, `send_email` raises `KeyError` at `config["email"]`,
outside its `try` block. -/
theorem c5_counterexample :
    load_config wNoEmailKey.configFile = .ok cfgNoEmail ∧
    (runMain wNoEmailKey).exitZero = false :=
  ⟨rfl, by decide⟩

/-- C5 (amended): the process exits non-zero exactly when the config file
is absent or malformed, OR the seen-set file exists but is malformed, OR
new jobs are found while the loaded config lacks the recipient (`email`)
key.  Scrape failure and mail-delivery failure still exit zero. -/
theorem c5_amended_exit_characterization (w : World) :
    (runMain w).exitZero = false ↔
      (w.configFile = none ∨ w.configFile = some (.error ()) ∨
        ∃ c, w.configFile = some (.ok c) ∧
          (w.seenFile = some (.error ()) ∨
            ∃ seen, load_seen_jobs w.seenFile = .ok seen ∧ c.email = none ∧
              compute_new_jobs seen w.scraped ≠ [])) := by
  cases hc : w.configFile with
  | none =>
    rw [runMain_config_absent w hc]
    simp [hc]
  | some e =>
    cases e with
    | error u =>
      cases u
      rw [runMain_config_malformed w hc]
      simp [hc]
    | ok c =>
      cases hsf : w.seenFile with
      | none =>
        have hs : load_seen_jobs w.seenFile = .ok [] := by rw [hsf]; rfl
        rw [c5_aux w c [] hc hs]
        simp [hc, hsf, load_seen_jobs]
      | some e2 =>
        cases e2 with
        | error u =>
          cases u
          rw [runMain_seen_malformed w c hc hsf]
          simp [hc, hsf]
        | ok seenl =>
          have hs : load_seen_jobs w.seenFile = .ok seenl := by rw [hsf]; rfl
          rw [c5_aux w c seenl hc hs]
          simp [hc, hsf, load_seen_jobs]

/-- C5 witness: instantiating the characterization at the run whose loaded
config lacks the recipient key. -/
theorem c5_amended_exit_characterization_witness :
    (runMain wNoEmailKey).exitZero = false :=
  (c5_amended_exit_characterization wNoEmailKey).mpr
    (Or.inr (Or.inr ⟨cfgNoEmail, rfl, Or.inr ⟨[], rfl, rfl, by decide⟩⟩))

/-- C6: with a loadable config (recipient present), a readable seen file of
membership size `n`, and a non-empty scrape with pairwise-distinct ids
finding `k` new jobs, the persisted seen-set after the run has size
`n + k`. -/
theorem c6_size_additivity (w : World) (c : Config) (r : String)
    (seen : List String)
    (hc : w.configFile = some (.ok c)) (hr : c.email = some r)
    (hs : load_seen_jobs w.seenFile = .ok seen)
    (hscr : w.scraped ≠ []) (hnd : (w.scraped.map Job.id).Nodup) :
    ∃ l, load_seen_jobs (seenFileAfter w) = .ok l ∧
      l.toFinset.card =
        seen.dedup.length + (compute_new_jobs seen w.scraped).length := by
  have h1 : w.scraped.isEmpty = false := List.isEmpty_eq_false.mpr hscr
  by_cases h2 : (compute_new_jobs seen w.scraped).isEmpty
  · have hw : (runMain w).wrote = none := by
      rw [runMain_ok w c seen hc hs, if_neg (by simp [h1]), if_pos h2]
    rw [seenFileAfter_of_wrote_none hw, hs]
    refine ⟨seen, rfl, ?_⟩
    rw [List.isEmpty_iff.mp h2]
    simp [List.card_toFinset]
  · obtain ⟨out, hout⟩ := @send_email_ok_of_email c r w.envPassword w.smtpOk
      (compute_new_jobs seen w.scraped) hr
    have hw : (runMain w).wrote =
        some (seen.dedup ++ (compute_new_jobs seen w.scraped).map Job.id) := by
      rw [runMain_ok w c seen hc hs, if_neg (by simp [h1]), if_neg h2, hout]
    rw [seenFileAfter_of_wrote_some hw]
    refine ⟨_, rfl, ?_⟩
    have hsub : (compute_new_jobs seen w.scraped).Sublist w.scraped := by
      rw [compute_new_jobs_eq_filter]
      exact List.filter_sublist _
    have hnodup_new : ((compute_new_jobs seen w.scraped).map Job.id).Nodup :=
      (hsub.map Job.id).nodup hnd
    have hdisj : (seen.dedup).Disjoint
        ((compute_new_jobs seen w.scraped).map Job.id) := by
      intro a ha hmem
      obtain ⟨job, hjob, hid⟩ := List.mem_map.mp hmem
      rw [compute_new_jobs_eq_filter] at hjob
      have hpred := (List.mem_filter.mp hjob).2
      have hfalse : seen.contains job.id = false := by
        cases hcb : seen.contains job.id with
        | false => rfl
        | true => rw [hcb] at hpred; exact absurd hpred (by decide)
      exact ((contains_eq_false_iff seen job.id).mp hfalse)
        (List.mem_dedup.mp (by rw [hid]; exact ha))
    have hnodup : (seen.dedup ++
        (compute_new_jobs seen w.scraped).map Job.id).Nodup :=
      List.nodup_append.mpr ⟨List.nodup_dedup seen, hnodup_new, hdisj⟩
    rw [List.toFinset_card_of_nodup hnodup, List.length_append, List.length_map]

/-- C6 witness: prior membership size 1, one new job, final size 2. -/
theorem c6_size_additivity_witness :
    (wNewNoPass.configFile = some (.ok cfgFull) ∧
      cfgFull.email = some "user@example.com" ∧
      load_seen_jobs wNewNoPass.seenFile = .ok ["A"] ∧
      wNewNoPass.scraped ≠ [] ∧ (wNewNoPass.scraped.map Job.id).Nodup) ∧
    ∃ l, load_seen_jobs (seenFileAfter wNewNoPass) = .ok l ∧
      l.toFinset.card =
        (["A"] : List String).dedup.length +
          (compute_new_jobs ["A"] wNewNoPass.scraped).length :=
  ⟨⟨rfl, rfl, rfl, by decide, by decide⟩,
    c6_size_additivity wNewNoPass cfgFull "user@example.com" ["A"]
      rfl rfl rfl (by decide) (by decide)⟩

/-- C9: a non-empty scrape in which every id is already seen sends nothing,
writes nothing, leaves the seen file unchanged, and exits zero. -/
theorem c9_all_seen_frame (w : World) (c : Config) (seen : List String)
    (hc : w.configFile = some (.ok c)) (hs : load_seen_jobs w.seenFile = .ok seen)
    (hscr : w.scraped ≠ []) (hall : ∀ job ∈ w.scraped, job.id ∈ seen) :
    (runMain w).exitZero = true ∧ (runMain w).email = none ∧
    (runMain w).wrote = none ∧ seenFileAfter w = w.seenFile := by
  have hnew : compute_new_jobs seen w.scraped = [] := by
    rw [compute_new_jobs_eq_filter, List.filter_eq_nil_iff]
    intro job hjob
    rw [(contains_iff_mem seen job.id).mpr (hall job hjob)]
    decide
  have h1 : w.scraped.isEmpty = false := List.isEmpty_eq_false.mpr hscr
  have hres : runMain w = { exitZero := true, email := none, wrote := none } := by
    rw [runMain_ok w c seen hc hs, if_neg (by simp [h1]),
      if_pos (show (compute_new_jobs seen w.scraped).isEmpty = true by rw [hnew]; rfl)]
  rw [hres]
  exact ⟨rfl, rfl, rfl, seenFileAfter_of_wrote_none (by rw [hres])⟩

/-- C9 witness: both scraped jobs already seen; nothing happens. -/
theorem c9_all_seen_frame_witness :
    (wAllSeen.configFile = some (.ok cfgFull) ∧
      load_seen_jobs wAllSeen.seenFile = .ok ["A", "B"] ∧
      wAllSeen.scraped ≠ [] ∧
      ∀ job ∈ wAllSeen.scraped, job.id ∈ (["A", "B"] : List String)) ∧
    ((runMain wAllSeen).exitZero = true ∧ (runMain wAllSeen).email = none ∧
      (runMain wAllSeen).wrote = none ∧
      seenFileAfter wAllSeen = wAllSeen.seenFile) :=
  ⟨⟨rfl, rfl, by decide, by decide⟩,
    c9_all_seen_frame wAllSeen cfgFull ["A", "B"] rfl rfl (by decide) (by decide)⟩

/-- C10: when the optional `smtp_from` and `smtp_user` keys are absent, the
message's From header and the SMTP login identity both default to the
recipient address. -/
theorem c10_defaults_to_recipient (c : Config) (r : String) (pw : Option String)
    (ok : Bool) (jobs : List Job) (out : EmailOutcome)
    (hr : c.email = some r) (hf : c.smtp_from = none) (hu : c.smtp_user = none)
    (hout : send_email c pw ok jobs = .ok out) :
    out.msg.fromAddr = r ∧ out.msg.toAddr = r ∧
    ∀ u, out.loginUser? = some u → u = r := by
  simp only [send_email, hr, hf, hu] at hout
  by_cases hp : (pw.getD "") = ""
  · rw [if_pos hp] at hout
    injection hout with h1
    subst h1
    exact ⟨rfl, rfl, fun u h => Option.noConfusion h⟩
  · rw [if_neg hp] at hout
    cases ok with
    | true =>
      rw [if_pos rfl] at hout
      injection hout with h1
      subst h1
      refine ⟨rfl, rfl, fun u h => ?_⟩
      injection h with h2
      rw [← h2]
      rfl
    | false =>
      rw [if_neg (by decide)] at hout
      injection hout with h1
      subst h1
      refine ⟨rfl, rfl, fun u h => ?_⟩
      injection h with h2
      rw [← h2]
      rfl

/-- C10 witness: both overrides absent; From, To and login all equal the
recipient. -/
theorem c10_defaults_to_recipient_witness :
    (cfgFull.email = some "user@example.com" ∧ cfgFull.smtp_from = none ∧
      cfgFull.smtp_user = none ∧
      send_email cfgFull (some "pw") true [jobC] = .ok sentToSelf) ∧
    (sentToSelf.msg.fromAddr = "user@example.com" ∧
      sentToSelf.msg.toAddr = "user@example.com" ∧
      ∀ u, sentToSelf.loginUser? = some u → u = "user@example.com") :=
  ⟨⟨rfl, rfl, rfl, by decide⟩,
    c10_defaults_to_recipient cfgFull "user@example.com" (some "pw") true [jobC]
      sentToSelf rfl rfl rfl (by decide)⟩

end Monitor
